import Mathlib

/-!
Verification development for the ADio_Utils protocol codec
(`src/ADio_Utils.py`).  The Python source is shallowly embedded:

* machine integers become `Nat`/`Int` with explicit masking where the
  source masks;
* Python floats (`duty`, voltages) become `ℚ`; the only float operations
  the source performs on them (comparison against dyadic constants,
  scaling by the power of two 1024, subtraction of 0.5 near 0.5,
  truncation by `int(...)`) are exact in IEEE double for the inputs the
  claims range over, so the rational model is faithful;
* every `raise` site becomes a distinct constructor of `PyErr`;
* every command function returns the list of 10-character frames it has
  written to the transport before returning or raising, paired with the
  raised error (if any).  The transport reply never influences which
  frames a command writes, so replies are modelled only where they are
  parsed (`cmd_gpio_read`).
-/

namespace ADio

/-- The uppercase hexadecimal digit characters, in value order
(`"0123456789ABCDEF"` in the source). -/
def hexDigitsUpper : List Char :=
  ['0','1','2','3','4','5','6','7','8','9','A','B','C','D','E','F']

/-- Membership test in `"0123456789ABCDEF"`. -/
def isHexUpper (c : Char) : Bool := hexDigitsUpper.contains c

/-- The uppercase hex digit for a value `< 16` (as produced by Python's
`%X` formatting). -/
def hexChar (n : Nat) : Char :=
  if n < 10 then Char.ofNat (48 + n) else Char.ofNat (55 + n)

/-- Minimal-width uppercase hexadecimal rendering, fuel-driven so that it
is structurally recursive.  `natToHex` always supplies enough fuel. -/
def natToHexAux : Nat → Nat → List Char
  | 0, _ => []
  | fuel + 1, n =>
      if n < 16 then [hexChar n]
      else natToHexAux fuel (n / 16) ++ [hexChar (n % 16)]

/-- Python's `f"{n:X}"`: minimal-width uppercase hexadecimal. -/
def natToHex (n : Nat) : List Char := natToHexAux (n + 1) n

/-- Python's zero left-padding to width `w` (the effect of a `0w` format
specifier on a nonnegative value). -/
def zfill (w : Nat) (l : List Char) : List Char :=
  List.replicate (w - l.length) '0' ++ l

deriving instance DecidableEq for Except

/-- One constructor per `raise` site of the source module. -/
inductive PyErr
  | chShape          -- _normalize_channels: selector of unsupported shape
  | chRange          -- _normalize_channels: element out of 0..max_ch
  | cmdLen           -- _fmt_cmd: RuntimeError "cmd length != 10"
  | fsUnsupported    -- get_sampling_command: fs_ksps not in the allowed set
  | targetBad        -- get_sampling_command: target not 0/1
  | adcChRange       -- "CH は 0～15"
  | chunkSizeRange   -- "CHUNK_SIZE は 0～2047"
  | chunkNumRange    -- "CHUNK_NUM は 1～65536"
  | ldacLevelBad     -- "LDAC レベルは 0 または 1"
  | ldacChRange      -- ldac_mask_from_channels: "CH は 0～7"
  | ldacMaskRange    -- "mask は 0x00～0xFF"
  | dacChRange       -- "DAC CH は 0～8"
  | dacValueRange    -- "value は 0x0000～0xFFFF"
  | opampGainBad     -- "gain_code は 0～4"
  | encChBad         -- _norm_enc_ch: "エンコーダ対応CHは 0～3 または 'all'"
  | value16Range     -- "value16 は 0x0000～0xFFFF"
  | value32Range     -- "value32 は 0x00000000～0xFFFFFFFF"
  | flagsConflict    -- cmd_encoder_ctrl: do_reset と load_preset
  | freqNeg          -- cmd_pwm_set_frequency: "freq_hz は 0 以上"
  | freqBand         -- cmd_pwm_set_frequency: not expressible in either band
  | dutyRawRange     -- cmd_pwm_set_data_raw: "DDDD は 0x0000～0x03FF"
  | dutyRange        -- cmd_pwm_set_duty: "duty は 0.0～1.0"
  | statusChRange    -- cmd_encoder_status_read: "channel は 0～3"
  | gpioValueRange   -- cmd_gpio_write: "value は 0x00～0xFF"
  | resetModeBad     -- cmd_reset: mode not "all"/"adc"
  deriving DecidableEq, Repr

/-- `_fmt_cmd`: build the 10-character frame
`f"*{C}{HH:02X}{E:X}{DDDD:04X}#"` and raise `RuntimeError` if the result
is not exactly 10 characters long. -/
def _fmt_cmd (c : Char) (HH E DDDD : Nat) : Except PyErr (List Char) :=
  let s : List Char :=
    '*' :: c :: (zfill 2 (natToHex HH) ++ natToHex E ++ zfill 4 (natToHex DDDD) ++ ['#'])
  if s.length ≠ 10 then .error .cmdLen else .ok s

/-- A caller-supplied channel selector: Python's
`Union[str, int, Iterable[int]]` (the iterable case modelled as a list of
integers). -/
inductive ChSel
  | str (s : List Char)
  | int (n : Int)
  | list (l : List Int)
  deriving DecidableEq, Repr

/-- `int(x)` applied to a single character, as happens when
`_normalize_channels` iterates over a string argument: succeeds exactly
on ASCII decimal digits. -/
def digitVal (c : Char) : Option Int :=
  if 48 ≤ c.toNat ∧ c.toNat ≤ 57 then some ((c.toNat : Int) - 48) else none

/-- Insert into an ascending duplicate-free list, keeping it ascending and
duplicate-free. -/
def insertAsc (x : Int) : List Int → List Int
  | [] => [x]
  | y :: ys =>
      if x < y then x :: y :: ys
      else if x = y then y :: ys
      else y :: insertAsc x ys

/-- Python's `sorted(set(l))`: ascending list of the distinct elements. -/
def sortDedup (l : List Int) : List Int := l.foldr insertAsc []

/-- The per-element range check of `_normalize_channels` (`0 <= c <= max_ch`
for every element, else ValueError), followed by the coercion of the
validated nonnegative integers to `Nat`. -/
def validateChannels (l : List Int) (max_ch : Nat) : Except PyErr (List Nat) :=
  if l.all (fun c => decide (0 ≤ c ∧ c ≤ (max_ch : Int))) then
    .ok (l.map Int.toNat)
  else .error .chRange

/-- `_normalize_channels`: `'all'` (case-insensitive) expands to
`[0..max_ch]`; an `int` becomes a singleton; an iterable is mapped through
`int`, deduplicated and sorted; any other shape (in particular a string
whose characters are not all decimal digits) raises; then every element is
range-checked. -/
def _normalize_channels (chs : ChSel) (max_ch : Nat) : Except PyErr (List Nat) :=
  match chs with
  | .str s =>
      if s.map Char.toLower = ['a', 'l', 'l'] then .ok (List.range (max_ch + 1))
      else
        match s.mapM digitVal with
        | none => .error .chShape
        | some l => validateChannels (sortDedup l) max_ch
  | .int n => validateChannels (sortDedup [n]) max_ch
  | .list l => validateChannels (sortDedup l) max_ch

/-- `_mask_from_channels`: bit `ch` set for each listed channel. -/
def _mask_from_channels (l : List Nat) : Nat :=
  l.foldl (fun m ch => m ||| (1 <<< ch)) 0

/-- `get_sampling_command`: sampling-rate code lookup.  Returns the whole
frame text `f"*{(base + index):08X}#"`. -/
def get_sampling_command (fs_ksps : Int) (target : Int) : Except PyErr (List Char) :=
  let allowed : List Int := [1, 2, 4, 8, 16, 32, 64, 128, 256]
  if fs_ksps ∉ allowed then .error .fsUnsupported
  else
    match (if target = 0 then some 0x00000000
           else if target = 1 then some 0x00100000 else none) with
    | none => .error .targetBad
    | some base => .ok ('*' :: zfill 8 (natToHex (base + allowed.indexOf fs_ksps)) ++ ['#'])

/-- `convert_to_voltage`: fold a raw 20-bit-style value at the half-range
524288 and scale to ±5 V times the gain. -/
def convert_to_voltage (adc_value : Int) (gain : Int) : ℚ :=
  let MAX_ADC : Int := 524288
  let v : Int := if adc_value ≥ MAX_ADC then adc_value - 2 * MAX_ADC else adc_value
  ((v : ℚ) / (MAX_ADC : ℚ)) * 5 * gain

/-!  Command catalog.  Each command is modelled as a function from its
(validated-at-runtime) arguments to the pair
`(frames written to the transport in order, error raised if any)`.
Replies are read but never influence the frames written, so they are not
part of this state. -/

/-- The trace of one command: frames sent, and the raised error if any. -/
abbrev CmdOut := List (List Char) × Option PyErr

/-- Send a single already-formatted frame (the
`_fmt_cmd`-then-`_send_and_read_one_line` tail shared by the one-frame
commands). -/
def sendOne (f : Except PyErr (List Char)) : CmdOut :=
  match f with
  | .error e => ([], some e)
  | .ok cmd => ([cmd], none)

/-- `cmd_set_chunk_size`: `*1 HH 0 DDDD#`, CH 0–15, chunk size 0–2047. -/
def cmd_set_chunk_size (ch chunk_size : Int) : CmdOut :=
  if ¬(0 ≤ ch ∧ ch ≤ 0x0F) then ([], some .adcChRange)
  else if ¬(0 ≤ chunk_size ∧ chunk_size ≤ 0x07FF) then ([], some .chunkSizeRange)
  else sendOne (_fmt_cmd '1' ch.toNat 0x0 chunk_size.toNat)

/-- `cmd_start_accumulation`: `*4 00 2 0000#`. -/
def cmd_start_accumulation : CmdOut :=
  sendOne (_fmt_cmd '4' 0x00 0x2 0x0000)

/-- `cmd_set_chunk_num`: `*4 HH 1 (CHUNK_NUM-1)#`, count 1–65536. -/
def cmd_set_chunk_num (ch chunk_num : Int) : CmdOut :=
  if ¬(0 ≤ ch ∧ ch ≤ 0x0F) then ([], some .adcChRange)
  else if ¬(1 ≤ chunk_num ∧ chunk_num ≤ 0x10000) then ([], some .chunkNumRange)
  else sendOne (_fmt_cmd '4' ch.toNat 0x1 ((chunk_num - 1).toNat &&& 0xFFFF))

/-- `cmd_stop_accumulation`: `*4 00 3 0000#`. -/
def cmd_stop_accumulation : CmdOut :=
  sendOne (_fmt_cmd '4' 0x00 0x3 0x0000)

/-- `cmd_adc_single_sample`: `*4 HH 0 0000#` (reads one data line). -/
def cmd_adc_single_sample (ch : Int) : CmdOut :=
  if ¬(0 ≤ ch ∧ ch ≤ 0x0F) then ([], some .adcChRange)
  else sendOne (_fmt_cmd '4' ch.toNat 0x0 0x0000)

/-- `cmd_adc_chunk_request`: `*4 HH 1 DDDD#` (fire-and-forget). -/
def cmd_adc_chunk_request (ch chunk_size : Int) : CmdOut :=
  if ¬(0 ≤ ch ∧ ch ≤ 0x0F) then ([], some .adcChRange)
  else if ¬(0 ≤ chunk_size ∧ chunk_size ≤ 0x07FF) then ([], some .chunkSizeRange)
  else sendOne (_fmt_cmd '4' ch.toNat 0x1 chunk_size.toNat)

/-- `cmd_set_ldac`: `*7 00 0 000y#`, level 0/1. -/
def cmd_set_ldac (level : Int) : CmdOut :=
  if ¬(level = 0 ∨ level = 1) then ([], some .ldacLevelBad)
  else sendOne (_fmt_cmd '7' 0x00 0x0 (level.toNat &&& 0x000F))

/-- `ldac_mask_from_channels`: 8-bit mask from channels 0–7. -/
def ldac_mask_from_channels (channels : List Int) : Except PyErr Nat :=
  if channels.all (fun c => decide (0 ≤ c ∧ c ≤ 7)) then
    .ok (_mask_from_channels (channels.map Int.toNat) &&& 0xFF)
  else .error .ldacChRange

/-- `cmd_set_ldac_mask`: `*8 00 0 00yy#`. -/
def cmd_set_ldac_mask (mask : Int) : CmdOut :=
  if ¬(0x00 ≤ mask ∧ mask ≤ 0xFF) then ([], some .ldacMaskRange)
  else sendOne (_fmt_cmd '8' 0x00 0x0 (mask.toNat &&& 0xFF))

/-- `cmd_dac_set_data`: `*6 HH 1 yyyy#`, CH 0–8. -/
def cmd_dac_set_data (ch value : Int) : CmdOut :=
  if ¬(0 ≤ ch ∧ ch ≤ 8) then ([], some .dacChRange)
  else if ¬(0x0000 ≤ value ∧ value ≤ 0xFFFF) then ([], some .dacValueRange)
  else sendOne (_fmt_cmd '6' ch.toNat 0x1 value.toNat)

/-- `cmd_dac_immediate_out`: `*6 HH 3 yyyy#`, CH 0–8. -/
def cmd_dac_immediate_out (ch value : Int) : CmdOut :=
  if ¬(0 ≤ ch ∧ ch ≤ 8) then ([], some .dacChRange)
  else if ¬(0x0000 ≤ value ∧ value ≤ 0xFFFF) then ([], some .dacValueRange)
  else sendOne (_fmt_cmd '6' ch.toNat 0x3 value.toNat)

/-- `cmd_set_opamp_gain`: `*5 HH 0 000y#`, CH 0–15, gain code 0–4. -/
def cmd_set_opamp_gain (ch gain_code : Int) : CmdOut :=
  if ¬(0 ≤ ch ∧ ch ≤ 0x0F) then ([], some .adcChRange)
  else if ¬(gain_code = 0 ∨ gain_code = 1 ∨ gain_code = 2 ∨ gain_code = 3 ∨ gain_code = 4) then
    ([], some .opampGainBad)
  else sendOne (_fmt_cmd '5' ch.toNat 0x0 (gain_code.toNat &&& 0x000F))

/-- `cmd_set_gpio_dir`: `*9 HH 0 DDDD#` — HH the active-channel mask,
DDDD the input-channel mask. -/
def cmd_set_gpio_dir (active_channels input_channels : ChSel) : CmdOut :=
  match _normalize_channels active_channels 7 with
  | .error e => ([], some e)
  | .ok act =>
    match _normalize_channels input_channels 7 with
    | .error e => ([], some e)
    | .ok ins =>
      sendOne (_fmt_cmd '9' (_mask_from_channels act &&& 0xFF) 0x0
        (_mask_from_channels ins &&& 0xFFFF))

/-- `cmd_set_gpio_pwm_mode`: normalizes both selectors, first issues
`cmd_set_gpio_dir` (active channels forced to output), then `*A HH 0 DDDD#`
with DDDD the mask of channels that are both in `pwm` and `active`. -/
def cmd_set_gpio_pwm_mode (active_channels pwm_channels : ChSel) : CmdOut :=
  match _normalize_channels active_channels 7 with
  | .error e => ([], some e)
  | .ok act =>
    match _normalize_channels pwm_channels 7 with
    | .error e => ([], some e)
    | .ok pwm =>
      match cmd_set_gpio_dir (.list (act.map (fun c : Nat => (c : Int)))) (.list []) with
      | (sent, some e) => (sent, some e)
      | (sent, none) =>
        let hh := _mask_from_channels act &&& 0xFF
        let dd := _mask_from_channels (pwm.filter (fun c => c ∈ act)) &&& 0xFFFF
        match _fmt_cmd 'A' hh 0x0 dd with
        | .error e => (sent, some e)
        | .ok cmd => (sent ++ [cmd], none)

/-- `cmd_set_encoder_mode`: normalizes to channels 0–3, then issues
direction=input, GPIO-fix (`*A HH 0 0000#`), and `*A HH 1 0000#`. -/
def cmd_set_encoder_mode (channels : ChSel) : CmdOut :=
  match _normalize_channels channels 3 with
  | .error e => ([], some e)
  | .ok chs =>
    let hh := _mask_from_channels chs &&& 0xFF
    match cmd_set_gpio_dir (.list (chs.map (fun c : Nat => (c : Int)))) (.list (chs.map (fun c : Nat => (c : Int)))) with
    | (sent, some e) => (sent, some e)
    | (sent, none) =>
      match _fmt_cmd 'A' hh 0x0 0x0000 with
      | .error e => (sent, some e)
      | .ok cmd1 =>
        match _fmt_cmd 'A' hh 0x1 0x0000 with
        | .error e => (sent ++ [cmd1], some e)
        | .ok cmd2 => (sent ++ [cmd1, cmd2], none)

/-- `_norm_enc_ch`: `'all'` (case-insensitive) → `[0,1,2,3]`; a single
integer in 0–3 → singleton; anything else (other strings, out-of-range
integers, collections) raises. -/
def _norm_enc_ch : ChSel → Except PyErr (List Nat)
  | .str s =>
      if s.map Char.toLower = ['a', 'l', 'l'] then .ok [0, 1, 2, 3]
      else .error .encChBad
  | .int n => if 0 ≤ n ∧ n ≤ 3 then .ok [n.toNat] else .error .encChBad
  | .list _ => .error .encChBad

/-- `_hh_from_single_ch`: the single channel number itself, masked to a
byte, goes into HH. -/
def _hh_from_single_ch (ch : Nat) : Nat := ch &&& 0xFF

/-- Per-channel send loop of `cmd_encoder_preset_hi` /
`cmd_encoder_preset_lo` (`*A HH 2/3 DDDD#`). -/
def presetLoop (e value16 : Nat) : List Nat → CmdOut
  | [] => ([], none)
  | c :: rest =>
      match _fmt_cmd 'A' (_hh_from_single_ch c) e value16 with
      | .error err => ([], some err)
      | .ok cmd =>
          let r := presetLoop e value16 rest
          (cmd :: r.1, r.2)

/-- `cmd_encoder_preset_hi`: validate `value16`, expand the channel
argument via `_norm_enc_ch`, then one `*A HH 2 DDDD#` frame per channel. -/
def cmd_encoder_preset_hi (ch : ChSel) (value16 : Int) : CmdOut :=
  if ¬(0x0000 ≤ value16 ∧ value16 ≤ 0xFFFF) then ([], some .value16Range)
  else
    match _norm_enc_ch ch with
    | .error e => ([], some e)
    | .ok chs => presetLoop 0x2 value16.toNat chs

/-- `cmd_encoder_preset_lo`: as `cmd_encoder_preset_hi` but `*A HH 3 DDDD#`. -/
def cmd_encoder_preset_lo (ch : ChSel) (value16 : Int) : CmdOut :=
  if ¬(0x0000 ≤ value16 ∧ value16 ≤ 0xFFFF) then ([], some .value16Range)
  else
    match _norm_enc_ch ch with
    | .error e => ([], some e)
    | .ok chs => presetLoop 0x3 value16.toNat chs

/-- `cmd_encoder_preset_32`: validate `value32`, then HI frames followed by
LO frames (an exception in the HI half aborts before the LO half). -/
def cmd_encoder_preset_32 (ch : ChSel) (value32 : Int) : CmdOut :=
  if ¬(0x00000000 ≤ value32 ∧ value32 ≤ 0xFFFFFFFF) then ([], some .value32Range)
  else
    let hi : Int := ((value32.toNat >>> 16) &&& 0xFFFF : Nat)
    let lo : Int := (value32.toNat &&& 0xFFFF : Nat)
    match cmd_encoder_preset_hi ch hi with
    | (sent, some e) => (sent, some e)
    | (sent, none) =>
        let r := cmd_encoder_preset_lo ch lo
        (sent ++ r.1, r.2)

/-- The DDDD word of one `cmd_encoder_ctrl` frame:
bit0 = DIR_INV (only when `dir_invert` is explicitly `True`),
bit1 = COUNT_RESET, bit2 = COUNT_PRESET_EN. -/
def encCtrlData (dir_invert : Option Bool) (do_reset load_preset : Bool) : Nat :=
  let d := 0x0000
  let d := if dir_invert = some true then d ||| (1 <<< 0) else d
  let d := if do_reset then d ||| (1 <<< 1) else d
  let d := if load_preset then d ||| (1 <<< 2) else d
  d

/-- Per-channel send loop of `cmd_encoder_ctrl` (`*A HH 4 DDDD#`). -/
def encCtrlLoop (dir_invert : Option Bool) (do_reset load_preset : Bool) :
    List Nat → CmdOut
  | [] => ([], none)
  | c :: rest =>
      match _fmt_cmd 'A' (_hh_from_single_ch c) 0x4
              (encCtrlData dir_invert do_reset load_preset) with
      | .error err => ([], some err)
      | .ok cmd =>
          let r := encCtrlLoop dir_invert do_reset load_preset rest
          (cmd :: r.1, r.2)

/-- `cmd_encoder_ctrl`: rejects `do_reset ∧ load_preset` before anything
else, then normalizes channels to 0–3 and sends one frame per channel. -/
def cmd_encoder_ctrl (channels : ChSel) (dir_invert : Option Bool)
    (do_reset load_preset : Bool) : CmdOut :=
  if do_reset ∧ load_preset then ([], some .flagsConflict)
  else
    match _normalize_channels channels 3 with
    | .error e => ([], some e)
    | .ok chs => encCtrlLoop dir_invert do_reset load_preset chs

/-- `cmd_encoder_dir_invert`: delegate to `cmd_encoder_ctrl`. -/
def cmd_encoder_dir_invert (channels : ChSel) (invert : Bool) : CmdOut :=
  cmd_encoder_ctrl channels (some invert) false false

/-- `cmd_encoder_count_reset`: delegate to `cmd_encoder_ctrl`. -/
def cmd_encoder_count_reset (channels : ChSel) : CmdOut :=
  cmd_encoder_ctrl channels none true false

/-- `cmd_encoder_load_preset`: delegate to `cmd_encoder_ctrl`. -/
def cmd_encoder_load_preset (channels : ChSel) : CmdOut :=
  cmd_encoder_ctrl channels none false true

/-- The per-iteration DDDD computation of `cmd_pwm_set_frequency`:
0–4095 encodes Hz directly; a nonnegative multiple of 1000 up to 97000
encodes as `0x8000 + kHz`; everything else raises.  (Python `//` and `%`
are floor division and floor modulus, i.e. `Int.fdiv`/`Int.emod` for the
positive divisor 1000.) -/
def pwmFreqData (freq_hz : Int) : Except PyErr Nat :=
  if 0 ≤ freq_hz ∧ freq_hz ≤ 4095 then .ok freq_hz.toNat
  else if freq_hz.emod 1000 = 0 ∧ 0 ≤ freq_hz.fdiv 1000 ∧ freq_hz.fdiv 1000 ≤ 97 then
    .ok (0x8000 + (freq_hz.fdiv 1000).toNat)
  else .error .freqBand

/-- Per-channel send loop of `cmd_pwm_set_frequency` (`*B HH 0 DDDD#`);
the band check runs inside the loop, before that iteration's frame. -/
def pwmFreqLoop (freq_hz : Int) : List Nat → CmdOut
  | [] => ([], none)
  | c :: rest =>
      match pwmFreqData freq_hz with
      | .error err => ([], some err)
      | .ok dddd =>
          match _fmt_cmd 'B' c 0x0 dddd with
          | .error err => ([], some err)
          | .ok cmd =>
              let r := pwmFreqLoop freq_hz rest
              (cmd :: r.1, r.2)

/-- `cmd_pwm_set_frequency`: reject negative frequencies, normalize the
channels to 0–7, then send one frame per channel. -/
def cmd_pwm_set_frequency (channels : ChSel) (freq_hz : Int) : CmdOut :=
  if freq_hz < 0 then ([], some .freqNeg)
  else
    match _normalize_channels channels 7 with
    | .error e => ([], some e)
    | .ok chs => pwmFreqLoop freq_hz chs

/-- Per-channel send loop of `cmd_pwm_set_data_raw` (`*C HH 0 DDDD#`). -/
def pwmRawLoop (dddd : Nat) : List Nat → CmdOut
  | [] => ([], none)
  | c :: rest =>
      match _fmt_cmd 'C' c 0x0 dddd with
      | .error err => ([], some err)
      | .ok cmd =>
          let r := pwmRawLoop dddd rest
          (cmd :: r.1, r.2)

/-- `cmd_pwm_set_data_raw`: DDDD must lie in 0x0000–0x03FF, then one frame
per normalized channel 0–7. -/
def cmd_pwm_set_data_raw (channels : ChSel) (dddd : Int) : CmdOut :=
  if ¬(0x0000 ≤ dddd ∧ dddd ≤ 0x03FF) then ([], some .dutyRawRange)
  else
    match _normalize_channels channels 7 with
    | .error e => ([], some e)
    | .ok chs => pwmRawLoop dddd.toNat chs

/-- Python `int(q)` for a rational: truncation toward zero. -/
def pytrunc (q : ℚ) : Int := if q < 0 then Int.ceil q else Int.floor q

/-- The raw code computed by `cmd_pwm_set_duty` for an in-range duty:
0.0 → 0x0000; 1.0 → 0x03FF; otherwise `ticks = int(duty * 1024)` clamped
to [1, 0x3FE], with duties strictly within 1/1024 of 0.5 snapping to
0x01FF. -/
def pwmDutyCode (duty : ℚ) : Int :=
  if duty = 0 then 0x0000
  else if duty = 1 then 0x03FF
  else
    let ticks := pytrunc (duty * 1024)
    if ticks ≤ 0 then 0x0001
    else if ticks ≥ 1023 then 0x03FE
    else if |duty - 1/2| < 1/1024 then 0x01FF else ticks

/-- `cmd_pwm_set_duty`: validate `0.0 ≤ duty ≤ 1.0`, compute the raw code,
and delegate to `cmd_pwm_set_data_raw`. -/
def cmd_pwm_set_duty (channels : ChSel) (duty : ℚ) : CmdOut :=
  if ¬(0 ≤ duty ∧ duty ≤ 1) then ([], some .dutyRange)
  else cmd_pwm_set_data_raw channels (pwmDutyCode duty)

/-- Python `str.strip()` whitespace (the ASCII cases). -/
def isPySpace (c : Char) : Bool :=
  c = ' ' ∨ c = '\t' ∨ c = '\n' ∨ c = '\x0d' ∨ c = '\x0b' ∨ c = '\x0c'

/-- Python `str.strip()`: drop leading and trailing whitespace. -/
def pyStrip (l : List Char) : List Char :=
  ((l.dropWhile isPySpace).reverse.dropWhile isPySpace).reverse

/-- The value of one uppercase-or-lowercase hex digit, as accepted by
`int(s, 16)` per character. -/
def hexVal (c : Char) : Option Nat :=
  if 48 ≤ c.toNat ∧ c.toNat ≤ 57 then some (c.toNat - 48)
  else if 65 ≤ c.toNat ∧ c.toNat ≤ 70 then some (c.toNat - 55)
  else if 97 ≤ c.toNat ∧ c.toNat ≤ 102 then some (c.toNat - 87)
  else none

/-- `int(s, 16)` on a plain digit string: fails on the empty string or on
any non-hex character. -/
def parseHexChars (l : List Char) : Option Nat :=
  match l with
  | [] => none
  | _ =>
      l.foldl (fun acc c =>
        match acc, hexVal c with
        | some a, some d => some (a * 16 + d)
        | _, _ => none) (some 0)

/-- The hex characters `cmd_gpio_read` finds in a reply: the reply text is
stripped, uppercased, and filtered to `"0123456789ABCDEF"`. -/
def gpioHexChars (resp : List Char) : List Char :=
  ((pyStrip resp).map Char.toUpper).filter isHexUpper

/-- The reply-parsing half of `cmd_gpio_read`: scan the reply text for hex
characters, and if at least two are present parse the last two as the
8-bit value; any failure (including an exception inside the `try`) leaves
the sentinel `-1`. -/
def gpio_read_value (resp : List Char) : Int :=
  let hx := gpioHexChars resp
  if 2 ≤ hx.length then
    match parseHexChars (hx.drop (hx.length - 2)) with
    | some v => (v : Int)
    | none => -1
  else -1

/-- The frame `cmd_gpio_read` sends: `*D 00 0 0000#`. -/
def cmd_gpio_read_frame : Except PyErr (List Char) :=
  _fmt_cmd 'D' 0x00 0x0 0x0000

/-- The sending half of `cmd_encoder_status_read`: `*D HH 1 0000#`,
channel 0–3. -/
def cmd_encoder_status_read (channel : Int) : CmdOut :=
  if ¬(0 ≤ channel ∧ channel ≤ 3) then ([], some .statusChRange)
  else sendOne (_fmt_cmd 'D' channel.toNat 0x1 0x0000)

/-- `cmd_gpio_write`: `*E 00 0 DDDD#`, value 0x00–0xFF. -/
def cmd_gpio_write (value : Int) : CmdOut :=
  if ¬(0x00 ≤ value ∧ value ≤ 0xFF) then ([], some .gpioValueRange)
  else sendOne (_fmt_cmd 'E' 0x00 0x0 (value.toNat &&& 0x00FF))

/-- `cmd_gpio_write_mask`: normalize the high channels (0–7), build the
mask, delegate to `cmd_gpio_write`. -/
def cmd_gpio_write_mask (high_channels : ChSel) : CmdOut :=
  match _normalize_channels high_channels 7 with
  | .error e => ([], some e)
  | .ok chs => cmd_gpio_write ((_mask_from_channels chs &&& 0xFF : Nat) : Int)

/-- The channel arguments `_norm_enc_ch` accepts, per the claim: the
case-insensitive string `"all"`, or a single integer in `[0, 3]`. -/
def encChOk (sel : ChSel) : Prop :=
  (∃ s, sel = .str s ∧ s.map Char.toLower = ['a', 'l', 'l']) ∨
  (∃ n, sel = .int n ∧ 0 ≤ n ∧ n ≤ 3)

/-- The reset mode argument of `cmd_reset`. -/
inductive ResetArg
  | all
  | adc
  | other (s : List Char)
  deriving DecidableEq, Repr

/-- `cmd_reset`: mode `"all"` → `*F 00 0 0000#`, `"adc"` → `*F 00 0 0001#`,
anything else raises. -/
def cmd_reset (mode : ResetArg) : CmdOut :=
  match mode with
  | .all => sendOne (_fmt_cmd 'F' 0x00 0x0 0x0000)
  | .adc => sendOne (_fmt_cmd 'F' 0x00 0x0 0x0001)
  | .other _ => ([], some .resetModeBad)

/-- `cmd_reset_all`: delegate to `cmd_reset "all"`. -/
def cmd_reset_all : CmdOut := cmd_reset .all

/-- `cmd_reset_adc_tx`: delegate to `cmd_reset "adc"`. -/
def cmd_reset_adc_tx : CmdOut := cmd_reset .adc

/-- The serialized frame for in-range fields (what `_fmt_cmd` returns when
its length check passes). -/
def frameOf (c : Char) (HH E DDDD : Nat) : List Char :=
  '*' :: c :: (zfill 2 (natToHex HH) ++ [hexChar E] ++
    zfill 4 (natToHex DDDD) ++ ['#'])

/-- The DDDD quartet of a serialized frame. -/
def dataField (f : List Char) : List Char := (f.drop 5).take 4

/-- No partial transmission: whenever a command raises, it has written
nothing to the transport. -/
def noPartial (r : CmdOut) : Prop := ∀ e : PyErr, r.2 = some e → r.1 = []

/-- The frame pattern of the spec:
`*[0-9A-F][0-9A-F]{2}[0-9A-F][0-9A-F]{4}#` — an asterisk, eight uppercase
hexadecimal digits, a hash, ten characters in all. -/
def matchesFramePat (s : List Char) : Bool :=
  (s.length == 10) && (s.head? == some '*') && (s.getLast? == some '#') &&
    ((s.drop 1).take 8).all isHexUpper


/-!  Lemmas about the hexadecimal formatter and the frame builder. -/

theorem isHexUpper_hexChar {d : Nat} (h : d < 16) : isHexUpper (hexChar d) = true := by
  interval_cases d <;> decide

theorem natToHexAux_length_le :
    ∀ (fuel n w : Nat), n < 16 ^ w → 1 ≤ w → (natToHexAux fuel n).length ≤ w := by
  intro fuel
  induction fuel with
  | zero => intro n w _ _; simp [natToHexAux]
  | succ fuel ih =>
      intro n w hn hw
      rw [natToHexAux]
      by_cases h16 : n < 16
      · simpa [h16] using hw
      · simp only [h16, if_false, List.length_append, List.length_cons,
          List.length_nil]
        have hw2 : 2 ≤ w := by
          by_contra hlt
          interval_cases w
          · omega
        have hpow : 16 ^ w = 16 ^ (w - 1) * 16 := by
          conv_lhs => rw [show w = (w - 1) + 1 by omega]
          ring
        have hdiv : n / 16 < 16 ^ (w - 1) :=
          (Nat.div_lt_iff_lt_mul (by omega)).mpr (by omega)
        have := ih (n / 16) (w - 1) hdiv (by omega)
        omega

theorem natToHex_length_le {n w : Nat} (hn : n < 16 ^ w) (hw : 1 ≤ w) :
    (natToHex n).length ≤ w :=
  natToHexAux_length_le (n + 1) n w hn hw

theorem natToHexAux_all_hex :
    ∀ (fuel n : Nat) (c : Char), c ∈ natToHexAux fuel n → isHexUpper c = true := by
  intro fuel
  induction fuel with
  | zero => intro n c hc; simp [natToHexAux] at hc
  | succ fuel ih =>
      intro n c hc
      rw [natToHexAux] at hc
      by_cases h16 : n < 16
      · simp only [h16, if_true, List.mem_singleton] at hc
        subst hc; exact isHexUpper_hexChar h16
      · simp only [h16, if_false, List.mem_append, List.mem_singleton] at hc
        rcases hc with hc | hc
        · exact ih (n / 16) c hc
        · subst hc; exact isHexUpper_hexChar (Nat.mod_lt n (by omega))

theorem natToHex_all_hex {n : Nat} {c : Char} (hc : c ∈ natToHex n) :
    isHexUpper c = true :=
  natToHexAux_all_hex (n + 1) n c hc

theorem natToHex_single {n : Nat} (h : n < 16) : natToHex n = [hexChar n] := by
  rw [natToHex, natToHexAux]
  simp [h]

theorem zfill_length {w : Nat} {l : List Char} (h : l.length ≤ w) :
    (zfill w l).length = w := by
  simp [zfill]
  omega

theorem zfill_all_hex {w : Nat} {l : List Char}
    (hl : ∀ c ∈ l, isHexUpper c = true) :
    ∀ c ∈ zfill w l, isHexUpper c = true := by
  intro c hc
  rcases List.mem_append.mp hc with hc | hc
  · have := List.eq_of_mem_replicate hc
    subst this; decide
  · exact hl c hc

/-- For arguments within their bit widths, `_fmt_cmd` succeeds and its
output has the exact concatenated shape. -/
theorem fmt_ok {c : Char} {HH E DDDD : Nat}
    (h1 : HH ≤ 0xFF) (h2 : E ≤ 0xF) (h3 : DDDD ≤ 0xFFFF) :
    _fmt_cmd c HH E DDDD = .ok (frameOf c HH E DDDD) := by
  rw [frameOf]
  have lHH : (zfill 2 (natToHex HH)).length = 2 :=
    zfill_length (natToHex_length_le (by omega) (by omega))
  have lE : natToHex E = [hexChar E] := natToHex_single (by omega)
  have lDD : (zfill 4 (natToHex DDDD)).length = 4 :=
    zfill_length (natToHex_length_le (by omega) (by omega))
  rw [_fmt_cmd, lE]
  have hlen : ('*' :: c :: (zfill 2 (natToHex HH) ++ [hexChar E] ++
      zfill 4 (natToHex DDDD) ++ ['#'])).length = 10 := by
    simp [lHH, lDD]
  simp only [List.append_assoc] at hlen ⊢
  rw [if_neg (by omega)]

/-- The data field of a well-formed frame is the zero-filled data word. -/
theorem dataField_frameOf {c : Char} {HH E DDDD : Nat}
    (h1 : HH ≤ 0xFF) (h3 : DDDD ≤ 0xFFFF) :
    dataField (frameOf c HH E DDDD) = zfill 4 (natToHex DDDD) := by
  obtain ⟨a, b, hab⟩ := List.length_eq_two.mp
    (zfill_length (natToHex_length_le (show HH < 16 ^ 2 by omega) (by omega)))
  rw [dataField, frameOf, hab]
  simp only [List.cons_append, List.nil_append, List.singleton_append,
    List.append_assoc, List.drop_succ_cons, List.drop_zero]
  exact List.take_left'
    (zfill_length (natToHex_length_le (by omega) (by omega)))

/-!  Lemmas about channel normalization and the per-channel send loops. -/

theorem validateChannels_le {l : List Int} {m : Nat} {r : List Nat}
    (h : validateChannels l m = .ok r) : ∀ c ∈ r, c ≤ m := by
  rw [validateChannels] at h
  split at h
  · cases h
    intro c hc
    obtain ⟨x, hx, rfl⟩ := List.mem_map.mp hc
    rename_i hall
    have := of_decide_eq_true (List.all_eq_true.mp hall x hx)
    exact Int.toNat_le.mpr this.2
  · cases h

theorem norm_channels_le {chs : ChSel} {m : Nat} {l : List Nat}
    (h : _normalize_channels chs m = .ok l) : ∀ c ∈ l, c ≤ m := by
  rcases chs with s | n | il <;> rw [_normalize_channels] at h
  · split at h
    · cases h
      intro c hc
      have := List.mem_range.mp hc
      omega
    · split at h
      · cases h
      · exact validateChannels_le h
  · exact validateChannels_le h
  · exact validateChannels_le h

theorem norm_channels_err {chs : ChSel} {m : Nat} {e : PyErr}
    (h : _normalize_channels chs m = .error e) :
    e = .chShape ∨ e = .chRange := by
  have hv : ∀ (l : List Int), validateChannels l m = .error e →
      e = .chShape ∨ e = .chRange := by
    intro l hl
    rw [validateChannels] at hl
    split at hl
    · cases hl
    · cases hl; exact Or.inr rfl
  rcases chs with s | n | il <;> rw [_normalize_channels] at h
  · split at h
    · cases h
    · split at h
      · cases h; exact Or.inl rfl
      · exact hv _ h
  · exact hv _ h
  · exact hv _ h

/-- The DDDD word produced for an accepted PWM frequency fits the frame. -/
theorem pwmFreqData_le {f : Int} {d : Nat} (h : pwmFreqData f = .ok d) :
    d ≤ 0xFFFF := by
  rw [pwmFreqData] at h
  split at h
  · cases h
    rename_i hr
    omega
  · split at h
    · cases h
      rename_i hr
      have : (f.fdiv 1000).toNat ≤ 97 := Int.toNat_le.mpr (by omega)
      omega
    · cases h

/-- A rejected PWM frequency gives exactly the band error. -/
theorem pwmFreqData_err {f : Int} {e : PyErr} (h : pwmFreqData f = .error e) :
    e = .freqBand := by
  rw [pwmFreqData] at h
  split at h
  · cases h
  · split at h
    · cases h
    · cases h; rfl

theorem hh_from_single_ch_le (c : Nat) : _hh_from_single_ch c ≤ 0xFF := by
  rw [_hh_from_single_ch]; exact Nat.and_le_right

theorem pwmFreqLoop_ok {f : Int} {d : Nat} (hd : pwmFreqData f = .ok d)
    (chs : List Nat) (hb : ∀ c ∈ chs, c ≤ 0xFF) :
    pwmFreqLoop f chs = (chs.map (fun c => frameOf 'B' c 0x0 d), none) := by
  induction chs with
  | nil => rfl
  | cons c rest ih =>
      rw [pwmFreqLoop]
      simp only [hd, fmt_ok (hb c (List.mem_cons_self c rest))
          (show (0x0 : Nat) ≤ 0xF by omega) (pwmFreqData_le hd),
        ih (fun x hx => hb x (List.mem_cons_of_mem c hx)), List.map_cons]

theorem pwmRawLoop_ok {d : Nat} (hd : d ≤ 0xFFFF)
    (chs : List Nat) (hb : ∀ c ∈ chs, c ≤ 0xFF) :
    pwmRawLoop d chs = (chs.map (fun c => frameOf 'C' c 0x0 d), none) := by
  induction chs with
  | nil => rfl
  | cons c rest ih =>
      rw [pwmRawLoop]
      simp only [fmt_ok (hb c (List.mem_cons_self c rest))
          (show (0x0 : Nat) ≤ 0xF by omega) hd,
        ih (fun x hx => hb x (List.mem_cons_of_mem c hx)), List.map_cons]

theorem presetLoop_ok {e v : Nat} (he : e ≤ 0xF) (hv : v ≤ 0xFFFF)
    (chs : List Nat) :
    presetLoop e v chs =
      (chs.map (fun c => frameOf 'A' (_hh_from_single_ch c) e v), none) := by
  induction chs with
  | nil => rfl
  | cons c rest ih =>
      rw [presetLoop]
      simp only [fmt_ok (hh_from_single_ch_le c) he hv, ih, List.map_cons]

theorem encCtrlData_le (dir : Option Bool) (r p : Bool) :
    encCtrlData dir r p ≤ 7 := by
  rw [encCtrlData]
  split <;> split <;> split <;> decide

theorem encCtrlLoop_ok (dir : Option Bool) (r p : Bool) (chs : List Nat) :
    encCtrlLoop dir r p chs =
      (chs.map (fun c => frameOf 'A' (_hh_from_single_ch c) 0x4
        (encCtrlData dir r p)), none) := by
  induction chs with
  | nil => rfl
  | cons c rest ih =>
      rw [encCtrlLoop]
      simp only [fmt_ok (hh_from_single_ch_le c) (show (0x4 : Nat) ≤ 0xF by omega)
          (show encCtrlData dir r p ≤ 0xFFFF by
            have := encCtrlData_le dir r p; omega),
        ih, List.map_cons]

theorem noPartial_nil {x : Option PyErr} : noPartial ([], x) := fun _ _ => rfl

theorem noPartial_none {l : List (List Char)} : noPartial (l, none) :=
  fun _ he => nomatch he

theorem sendOne_noPartial (f : Except PyErr (List Char)) :
    noPartial (sendOne f) := by
  cases f with
  | error e => exact noPartial_nil
  | ok cmd => exact noPartial_none

theorem mem_insertAsc {x y : Int} {l : List Int} (h : x ∈ insertAsc y l) :
    x = y ∨ x ∈ l := by
  induction l with
  | nil =>
      rw [insertAsc] at h
      exact Or.inl (List.mem_singleton.mp h)
  | cons z zs ih =>
      rw [insertAsc] at h
      split at h
      · simpa using h
      · split at h
        · exact Or.inr h
        · rcases List.mem_cons.mp h with rfl | h
          · exact Or.inr (List.mem_cons_self _ _)
          · rcases ih h with h | h
            · exact Or.inl h
            · exact Or.inr (List.mem_cons_of_mem _ h)

theorem mem_sortDedup {x : Int} {l : List Int} (h : x ∈ sortDedup l) :
    x ∈ l := by
  induction l with
  | nil =>
      rw [sortDedup] at h
      exact absurd h (List.not_mem_nil x)
  | cons y ys ih =>
      rw [sortDedup, List.foldr_cons] at h
      rcases mem_insertAsc h with rfl | h
      · exact List.mem_cons_self _ _
      · exact List.mem_cons_of_mem _ (ih h)

/-- Normalizing an in-range list of channel numbers always succeeds. -/
theorem norm_list_ok {l : List Nat} (m : Nat) (hb : ∀ c ∈ l, c ≤ m) :
    ∃ r, _normalize_channels (.list (l.map (fun c : Nat => (c : Int)))) m = .ok r := by
  rw [_normalize_channels, validateChannels, if_pos]
  · exact ⟨_, rfl⟩
  · refine List.all_eq_true.mpr ?_
    intro x hx
    obtain ⟨c, hc, rfl⟩ := List.mem_map.mp (mem_sortDedup hx)
    have hcm := hb c hc
    refine decide_eq_true ⟨Int.natCast_nonneg c, ?_⟩
    exact_mod_cast hcm

/-- `cmd_set_gpio_dir` with valid selectors: exactly one frame, no error. -/
theorem gpio_dir_ok {a i : ChSel} {la li : List Nat}
    (ha : _normalize_channels a 7 = .ok la)
    (hi : _normalize_channels i 7 = .ok li) :
    cmd_set_gpio_dir a i =
      ([frameOf '9' (_mask_from_channels la &&& 0xFF) 0x0
        (_mask_from_channels li &&& 0xFFFF)], none) := by
  rw [cmd_set_gpio_dir]
  simp only [ha, hi,
    fmt_ok (Nat.and_le_right) (show (0x0 : Nat) ≤ 0xF by omega) (Nat.and_le_right),
    sendOne]

theorem gpio_dir_noPartial (a i : ChSel) : noPartial (cmd_set_gpio_dir a i) := by
  rw [cmd_set_gpio_dir]
  cases _normalize_channels a 7 with
  | error e => exact noPartial_nil
  | ok la =>
      cases _normalize_channels i 7 with
      | error e => exact noPartial_nil
      | ok li => exact sendOne_noPartial _

theorem pwmFreqLoop_noPartial {f : Int} {chs : List Nat}
    (hb : ∀ c ∈ chs, c ≤ 0xFF) : noPartial (pwmFreqLoop f chs) := by
  cases chs with
  | nil => exact noPartial_none
  | cons c rest =>
      cases hd : pwmFreqData f with
      | error err =>
          rw [pwmFreqLoop]
          simp only [hd]
          exact noPartial_nil
      | ok d =>
          rw [pwmFreqLoop_ok hd (c :: rest) hb]
          exact noPartial_none

theorem pwmRawLoop_noPartial {d : Nat} (hd : d ≤ 0xFFFF) {chs : List Nat}
    (hb : ∀ c ∈ chs, c ≤ 0xFF) : noPartial (pwmRawLoop d chs) := by
  rw [pwmRawLoop_ok hd chs hb]
  exact noPartial_none

/-- `cmd_encoder_preset_hi` with a valid channel argument and value. -/
theorem preset_hi_ok {sel : ChSel} {l : List Nat}
    (hn : _norm_enc_ch sel = .ok l) {v : Int}
    (hv : 0 ≤ v ∧ v ≤ 0xFFFF) :
    cmd_encoder_preset_hi sel v =
      (l.map (fun c => frameOf 'A' (_hh_from_single_ch c) 0x2 v.toNat), none) := by
  have h2 := presetLoop_ok (show (0x2 : Nat) ≤ 0xF by omega)
    (Int.toNat_le.mpr hv.2) l
  rw [cmd_encoder_preset_hi, if_neg (not_not.mpr hv)]
  simp only [hn, h2]

/-- `cmd_encoder_preset_lo` with a valid channel argument and value. -/
theorem preset_lo_ok {sel : ChSel} {l : List Nat}
    (hn : _norm_enc_ch sel = .ok l) {v : Int}
    (hv : 0 ≤ v ∧ v ≤ 0xFFFF) :
    cmd_encoder_preset_lo sel v =
      (l.map (fun c => frameOf 'A' (_hh_from_single_ch c) 0x3 v.toNat), none) := by
  have h2 := presetLoop_ok (show (0x3 : Nat) ≤ 0xF by omega)
    (Int.toNat_le.mpr hv.2) l
  rw [cmd_encoder_preset_lo, if_neg (not_not.mpr hv)]
  simp only [hn, h2]

/-- `cmd_encoder_preset_hi` with an invalid channel argument and a valid
value: error before anything is sent. -/
theorem preset_hi_err {sel : ChSel} {e : PyErr}
    (hn : _norm_enc_ch sel = .error e) {v : Int}
    (hv : 0 ≤ v ∧ v ≤ 0xFFFF) :
    cmd_encoder_preset_hi sel v = ([], some e) := by
  rw [cmd_encoder_preset_hi, if_neg (not_not.mpr hv)]
  simp only [hn]

/-- `cmd_encoder_preset_lo` with an invalid channel argument and a valid
value: error before anything is sent. -/
theorem preset_lo_err {sel : ChSel} {e : PyErr}
    (hn : _norm_enc_ch sel = .error e) {v : Int}
    (hv : 0 ≤ v ∧ v ≤ 0xFFFF) :
    cmd_encoder_preset_lo sel v = ([], some e) := by
  rw [cmd_encoder_preset_lo, if_neg (not_not.mpr hv)]
  simp only [hn]

theorem preset_hi_noPartial (sel : ChSel) (v : Int) :
    noPartial (cmd_encoder_preset_hi sel v) := by
  rw [cmd_encoder_preset_hi]
  split
  · exact noPartial_nil
  · rename_i hv
    have hv2 := (not_not.mp hv).2
    cases hn : _norm_enc_ch sel with
    | error e => exact noPartial_nil
    | ok l =>
        show noPartial (presetLoop 0x2 v.toNat l)
        rw [presetLoop_ok (show (0x2 : Nat) ≤ 0xF by omega)
          (Int.toNat_le.mpr hv2) l]
        exact noPartial_none

theorem preset_lo_noPartial (sel : ChSel) (v : Int) :
    noPartial (cmd_encoder_preset_lo sel v) := by
  rw [cmd_encoder_preset_lo]
  split
  · exact noPartial_nil
  · rename_i hv
    have hv2 := (not_not.mp hv).2
    cases hn : _norm_enc_ch sel with
    | error e => exact noPartial_nil
    | ok l =>
        show noPartial (presetLoop 0x3 v.toNat l)
        rw [presetLoop_ok (show (0x3 : Nat) ≤ 0xF by omega)
          (Int.toNat_le.mpr hv2) l]
        exact noPartial_none

theorem preset_32_noPartial (sel : ChSel) (v : Int) :
    noPartial (cmd_encoder_preset_32 sel v) := by
  rw [cmd_encoder_preset_32]
  split
  · exact noPartial_nil
  · have hhiv : (0 : Int) ≤ ((v.toNat >>> 16) &&& 0xFFFF : Nat) ∧
        (((v.toNat >>> 16) &&& 0xFFFF : Nat) : Int) ≤ 0xFFFF :=
      ⟨Int.natCast_nonneg _, by exact_mod_cast Nat.and_le_right⟩
    have hlov : (0 : Int) ≤ ((v.toNat &&& 0xFFFF : Nat) : Int) ∧
        ((v.toNat &&& 0xFFFF : Nat) : Int) ≤ 0xFFFF :=
      ⟨Int.natCast_nonneg _, by exact_mod_cast Nat.and_le_right⟩
    cases hn : _norm_enc_ch sel with
    | error e =>
        simp only [preset_hi_err hn hhiv]
        exact noPartial_nil
    | ok l =>
        simp only [preset_hi_ok hn hhiv, preset_lo_ok hn hlov]
        exact noPartial_none

theorem gpio_pwm_mode_noPartial (a p : ChSel) :
    noPartial (cmd_set_gpio_pwm_mode a p) := by
  rw [cmd_set_gpio_pwm_mode]
  split
  · exact noPartial_nil
  · rename_i act hna
    split
    · exact noPartial_nil
    · rename_i pwm hnp
      obtain ⟨r, hr⟩ := norm_list_ok 7 (norm_channels_le hna)
      simp only [gpio_dir_ok hr
          (show _normalize_channels (.list []) 7 = .ok [] by decide),
        fmt_ok Nat.and_le_right (show (0x0 : Nat) ≤ 0xF by omega)
          Nat.and_le_right]
      exact noPartial_none

theorem encoder_mode_noPartial (chs : ChSel) :
    noPartial (cmd_set_encoder_mode chs) := by
  rw [cmd_set_encoder_mode]
  split
  · exact noPartial_nil
  · rename_i l hn
    obtain ⟨r, hr⟩ := norm_list_ok 7
      (fun c hc => le_trans (norm_channels_le hn c hc) (by omega))
    simp only [gpio_dir_ok hr hr,
      fmt_ok Nat.and_le_right (show (0x0 : Nat) ≤ 0xF by omega)
        (show (0x0000 : Nat) ≤ 0xFFFF by omega),
      fmt_ok Nat.and_le_right (show (0x1 : Nat) ≤ 0xF by omega)
        (show (0x0000 : Nat) ≤ 0xFFFF by omega)]
    exact noPartial_none

theorem encoder_ctrl_noPartial (chs : ChSel) (dir : Option Bool)
    (r p : Bool) : noPartial (cmd_encoder_ctrl chs dir r p) := by
  rw [cmd_encoder_ctrl]
  split
  · exact noPartial_nil
  · split
    · exact noPartial_nil
    · rw [encCtrlLoop_ok]
      exact noPartial_none

theorem pwm_freq_noPartial (chs : ChSel) (f : Int) :
    noPartial (cmd_pwm_set_frequency chs f) := by
  rw [cmd_pwm_set_frequency]
  split
  · exact noPartial_nil
  · split
    · exact noPartial_nil
    · rename_i l hn
      exact pwmFreqLoop_noPartial
        (fun c hc => le_trans (norm_channels_le hn c hc) (by omega))

theorem pwm_raw_noPartial (chs : ChSel) (d : Int) :
    noPartial (cmd_pwm_set_data_raw chs d) := by
  rw [cmd_pwm_set_data_raw]
  split
  · exact noPartial_nil
  · rename_i hd
    have hd2 := (not_not.mp hd).2
    split
    · exact noPartial_nil
    · rename_i l hn
      exact pwmRawLoop_noPartial (Int.toNat_le.mpr (by omega))
        (fun c hc => le_trans (norm_channels_le hn c hc) (by omega))

theorem pwm_duty_noPartial (chs : ChSel) (duty : ℚ) :
    noPartial (cmd_pwm_set_duty chs duty) := by
  rw [cmd_pwm_set_duty]
  split
  · exact noPartial_nil
  · exact pwm_raw_noPartial chs (pwmDutyCode duty)

theorem gpio_write_noPartial (v : Int) : noPartial (cmd_gpio_write v) := by
  rw [cmd_gpio_write]
  split
  · exact noPartial_nil
  · exact sendOne_noPartial _

theorem gpio_write_mask_noPartial (chs : ChSel) :
    noPartial (cmd_gpio_write_mask chs) := by
  rw [cmd_gpio_write_mask]
  split
  · exact noPartial_nil
  · exact gpio_write_noPartial _

theorem chunk_size_noPartial (ch cs : Int) :
    noPartial (cmd_set_chunk_size ch cs) := by
  rw [cmd_set_chunk_size]
  split
  · exact noPartial_nil
  · split
    · exact noPartial_nil
    · exact sendOne_noPartial _

theorem chunk_num_noPartial (ch n : Int) :
    noPartial (cmd_set_chunk_num ch n) := by
  rw [cmd_set_chunk_num]
  split
  · exact noPartial_nil
  · split
    · exact noPartial_nil
    · exact sendOne_noPartial _

theorem adc_single_noPartial (ch : Int) :
    noPartial (cmd_adc_single_sample ch) := by
  rw [cmd_adc_single_sample]
  split
  · exact noPartial_nil
  · exact sendOne_noPartial _

theorem adc_chunk_req_noPartial (ch cs : Int) :
    noPartial (cmd_adc_chunk_request ch cs) := by
  rw [cmd_adc_chunk_request]
  split
  · exact noPartial_nil
  · split
    · exact noPartial_nil
    · exact sendOne_noPartial _

theorem set_ldac_noPartial (lv : Int) : noPartial (cmd_set_ldac lv) := by
  rw [cmd_set_ldac]
  split
  · exact noPartial_nil
  · exact sendOne_noPartial _

theorem ldac_mask_noPartial (m : Int) : noPartial (cmd_set_ldac_mask m) := by
  rw [cmd_set_ldac_mask]
  split
  · exact noPartial_nil
  · exact sendOne_noPartial _

theorem dac_set_data_noPartial (ch v : Int) :
    noPartial (cmd_dac_set_data ch v) := by
  rw [cmd_dac_set_data]
  split
  · exact noPartial_nil
  · split
    · exact noPartial_nil
    · exact sendOne_noPartial _

theorem dac_imm_noPartial (ch v : Int) :
    noPartial (cmd_dac_immediate_out ch v) := by
  rw [cmd_dac_immediate_out]
  split
  · exact noPartial_nil
  · split
    · exact noPartial_nil
    · exact sendOne_noPartial _

theorem opamp_noPartial (ch g : Int) :
    noPartial (cmd_set_opamp_gain ch g) := by
  rw [cmd_set_opamp_gain]
  split
  · exact noPartial_nil
  · split
    · exact noPartial_nil
    · exact sendOne_noPartial _

theorem status_read_noPartial (ch : Int) :
    noPartial (cmd_encoder_status_read ch) := by
  rw [cmd_encoder_status_read]
  split
  · exact noPartial_nil
  · exact sendOne_noPartial _

theorem reset_noPartial (m : ResetArg) : noPartial (cmd_reset m) := by
  cases m with
  | all => exact sendOne_noPartial _
  | adc => exact sendOne_noPartial _
  | other s => exact noPartial_nil

/-- For a duty strictly inside (0,1), `int(duty * 1024)` equals the floor
and lies in [0, 1023]. -/
theorem pwmDutyTicks_bounds {duty : ℚ} (h0 : 0 < duty) (h1 : duty < 1) :
    pytrunc (duty * 1024) = Int.floor (duty * 1024) ∧
    (0 : Int) ≤ Int.floor (duty * 1024) ∧ Int.floor (duty * 1024) < 1024 := by
  refine ⟨?_, ?_, ?_⟩
  · rw [pytrunc, if_neg]
    simp only [not_lt]
    positivity
  · exact Int.le_floor.mpr (by push_cast; positivity)
  · exact Int.floor_lt.mpr (by push_cast; nlinarith)

/-- For a duty strictly inside (0,1) the raw code lies in [1, 1022]. -/
theorem pwmDutyCode_interior {duty : ℚ} (h0 : 0 < duty) (h1 : duty < 1) :
    1 ≤ pwmDutyCode duty ∧ pwmDutyCode duty ≤ 1022 := by
  obtain ⟨htr, hfl0, hfl1⟩ := pwmDutyTicks_bounds h0 h1
  rw [pwmDutyCode, if_neg (ne_of_gt h0), if_neg (ne_of_lt h1), htr]
  rcases le_or_lt (Int.floor (duty * 1024)) 0 with hle | hgt
  · rw [if_pos hle]; omega
  · rw [if_neg (by omega)]
    rcases le_or_lt 1023 (Int.floor (duty * 1024)) with hge | hlt2
    · rw [if_pos (by omega)]; omega
    · rw [if_neg (by omega)]
      split
      · omega
      · omega

/-- Any duty strictly within 1/1024 of 0.5 snaps to 0x01FF. -/
theorem pwmDutyCode_snap {duty : ℚ} (h0 : 0 < duty) (h1 : duty < 1)
    (hsnap : |duty - 1/2| < 1/1024) : pwmDutyCode duty = 0x01FF := by
  obtain ⟨htr, hfl0, hfl1⟩ := pwmDutyTicks_bounds h0 h1
  have habs := abs_lt.mp hsnap
  have hlow : (511 : Int) ≤ Int.floor (duty * 1024) :=
    Int.le_floor.mpr (by push_cast; nlinarith [habs.1])
  have hhigh : Int.floor (duty * 1024) < 513 :=
    Int.floor_lt.mpr (by push_cast; nlinarith [habs.2])
  rw [pwmDutyCode, if_neg (ne_of_gt h0), if_neg (ne_of_lt h1), htr,
    if_neg (by omega), if_neg (by omega), if_pos hsnap]

end ADio

open ADio

/-- Claim C1 (counterexample): `get_sampling_command` with `fs_ksps = 64`
and `target = 0` does NOT return the frame with body `00000005`: the
0-based position of 64 in `[1,2,4,8,16,32,64,128,256]` is 6, not 5. -/
theorem claim_C1_counterexample :
    get_sampling_command 64 0 ≠
      .ok ['*', '0', '0', '0', '0', '0', '0', '0', '5', '#'] := by decide

/-- Claim C1 (amended): `get_sampling_command` with `fs_ksps = 64` and
`target = 0` returns the frame whose 8-hex-digit body is `00000006`
(base 0x00000000 plus 6, the position of 64 in the ordered set
{1,2,4,8,16,32,64,128,256}); with `target = 1` it returns body
`00100006`; with `fs_ksps = 3` it raises a validation error. -/
theorem claim_C1 :
    get_sampling_command 64 0 =
        .ok ['*', '0', '0', '0', '0', '0', '0', '0', '6', '#'] ∧
    get_sampling_command 64 1 =
        .ok ['*', '0', '0', '1', '0', '0', '0', '0', '6', '#'] ∧
    ∀ target : Int, get_sampling_command 3 target = .error .fsUnsupported := by
  refine ⟨by decide, by decide, fun target => ?_⟩
  rw [get_sampling_command]
  norm_num

/-- Claim C2: for every code character in `0-9A-F`, `sub ≤ 0xFF`,
`ext ≤ 0xF` and `data ≤ 0xFFFF`, `_fmt_cmd` produces a 10-character string
matching `*[0-9A-F][0-9A-F]{2}[0-9A-F][0-9A-F]{4}#`, and the length-10
internal-consistency failure branch is unreachable. -/
theorem claim_C2 (c : Char) (HH E DDDD : Nat) (hc : isHexUpper c = true)
    (h1 : HH ≤ 0xFF) (h2 : E ≤ 0xF) (h3 : DDDD ≤ 0xFFFF) :
    ∃ s, _fmt_cmd c HH E DDDD = .ok s ∧ s.length = 10 ∧
      matchesFramePat s = true := by
  refine ⟨_, fmt_ok h1 h2 h3, ?_, ?_⟩
  · have lHH : (zfill 2 (natToHex HH)).length = 2 :=
      zfill_length (natToHex_length_le (by omega) (by omega))
    have lDD : (zfill 4 (natToHex DDDD)).length = 4 :=
      zfill_length (natToHex_length_le (by omega) (by omega))
    simp [frameOf, lHH, lDD]
  · rw [frameOf]
    have lHH : (zfill 2 (natToHex HH)).length = 2 :=
      zfill_length (natToHex_length_le (by omega) (by omega))
    have lDD : (zfill 4 (natToHex DDDD)).length = 4 :=
      zfill_length (natToHex_length_le (by omega) (by omega))
    have hshape : '*' :: c :: (zfill 2 (natToHex HH) ++ [hexChar E] ++
        zfill 4 (natToHex DDDD) ++ ['#']) =
        ('*' :: c :: (zfill 2 (natToHex HH) ++ [hexChar E] ++
          zfill 4 (natToHex DDDD))) ++ ['#'] := by
      simp [List.append_assoc]
    simp only [matchesFramePat, Bool.and_eq_true, beq_iff_eq]
    refine ⟨⟨⟨?_, rfl⟩, ?_⟩, ?_⟩
    · simp [lHH, lDD]
    · rw [hshape]; exact List.getLast?_concat _
    · have hdrop : ('*' :: c :: (zfill 2 (natToHex HH) ++ [hexChar E] ++
          zfill 4 (natToHex DDDD) ++ ['#'])).drop 1 =
          (c :: (zfill 2 (natToHex HH) ++ [hexChar E] ++
            zfill 4 (natToHex DDDD))) ++ ['#'] := by
        simp [List.append_assoc]
      rw [hdrop, List.take_left' (by simp [lHH, lDD])]
      refine List.all_eq_true.mpr ?_
      intro x hx
      rcases List.mem_cons.mp hx with rfl | hx
      · exact hc
      · rcases List.mem_append.mp hx with hx | hx
        · rcases List.mem_append.mp hx with hx | hx
          · exact zfill_all_hex (fun d hd => natToHex_all_hex hd) x hx
          · rcases List.mem_singleton.mp hx with rfl
            exact isHexUpper_hexChar (by omega)
        · exact zfill_all_hex (fun d hd => natToHex_all_hex hd) x hx

/-- Claim C2 (witness): a concrete instance of the frame-shape theorem. -/
theorem claim_C2_witness :
    ∃ s, _fmt_cmd 'B' 0x08 0x0 0x0801 = .ok s ∧ s.length = 10 ∧
      matchesFramePat s = true :=
  claim_C2 'B' 0x08 0x0 0x0801 (by decide) (by decide) (by decide) (by decide)

/-- Claim C5: `convert_to_voltage` folds any input `≥ 524288` by
subtracting 1048576 and returns `(folded / 524288) * 5 * gain`; in
particular 0 ↦ 0, 524288 ↦ −5·gain, 786432 ↦ −2.5·gain. -/
theorem claim_C5 (adc_value gain : Int) :
    convert_to_voltage adc_value gain =
      (((if adc_value ≥ 524288 then adc_value - 1048576 else adc_value) : Int) : ℚ)
        / 524288 * 5 * gain ∧
    convert_to_voltage 0 gain = 0 ∧
    convert_to_voltage 524288 gain = -5 * gain ∧
    convert_to_voltage 786432 gain = -(5/2) * gain := by
  refine ⟨by rw [convert_to_voltage]; norm_num, ?_, ?_, ?_⟩
  · rw [convert_to_voltage]; norm_num
  · rw [convert_to_voltage]; norm_num
  · rw [convert_to_voltage]; norm_num

/-- Claim C3: the duty-to-raw-code map of `cmd_pwm_set_duty` sends 0 to
0x0000, 1 to 0x03FF, 0.5 and 0.5 ± 1/2048 to 0x01FF, 0.1 to a code
strictly between 0x0001 and 0x03FE, and every duty strictly inside (0,1)
to a code in [1, 1022], snapping to 0x01FF whenever the duty is within
1/1024 of 0.5. -/
theorem claim_C3 (duty : ℚ) (h0 : 0 < duty) (h1 : duty < 1) :
    pwmDutyCode 0 = 0x0000 ∧
    pwmDutyCode 1 = 0x03FF ∧
    pwmDutyCode (1/2) = 0x01FF ∧
    pwmDutyCode (1/2 + 1/2048) = 0x01FF ∧
    pwmDutyCode (1/2 - 1/2048) = 0x01FF ∧
    (0x0001 < pwmDutyCode (1/10) ∧ pwmDutyCode (1/10) < 0x03FE) ∧
    (1 ≤ pwmDutyCode duty ∧ pwmDutyCode duty ≤ 1022) ∧
    (|duty - 1/2| < 1/1024 → pwmDutyCode duty = 0x01FF) := by
  refine ⟨by norm_num [pwmDutyCode], by norm_num [pwmDutyCode],
    by norm_num [pwmDutyCode, pytrunc, abs_lt],
    by norm_num [pwmDutyCode, pytrunc, abs_lt],
    by norm_num [pwmDutyCode, pytrunc, abs_lt],
    by norm_num [pwmDutyCode, pytrunc, abs_lt],
    pwmDutyCode_interior h0 h1,
    fun hsnap => pwmDutyCode_snap h0 h1 hsnap⟩

/-- Claim C3 (witness): the duty-code properties instantiated at the
concrete interior duty 3/4. -/
theorem claim_C3_witness :
    pwmDutyCode 0 = 0x0000 ∧
    pwmDutyCode 1 = 0x03FF ∧
    pwmDutyCode (1/2) = 0x01FF ∧
    pwmDutyCode (1/2 + 1/2048) = 0x01FF ∧
    pwmDutyCode (1/2 - 1/2048) = 0x01FF ∧
    (0x0001 < pwmDutyCode (1/10) ∧ pwmDutyCode (1/10) < 0x03FE) ∧
    (1 ≤ pwmDutyCode (3/4) ∧ pwmDutyCode (3/4) ≤ 1022) ∧
    (|(3/4 : ℚ) - 1/2| < 1/1024 → pwmDutyCode (3/4) = 0x01FF) :=
  claim_C3 (3/4) (by norm_num) (by norm_num)

theorem norm_enc_ch_err {sel : ChSel} (h : ¬ encChOk sel) :
    _norm_enc_ch sel = .error .encChBad := by
  rcases sel with s | n | l
  · rw [_norm_enc_ch, if_neg]
    intro hc
    exact h (Or.inl ⟨s, rfl, hc⟩)
  · rw [_norm_enc_ch, if_neg]
    intro hc
    exact h (Or.inr ⟨n, rfl, hc.1, hc.2⟩)
  · rfl

theorem norm_enc_ch_ok {sel : ChSel} (h : encChOk sel) :
    ∃ l, _norm_enc_ch sel = .ok l := by
  rcases h with ⟨s, rfl, hs⟩ | ⟨n, rfl, h0, h3⟩
  · exact ⟨_, by rw [_norm_enc_ch, if_pos hs]⟩
  · exact ⟨_, by rw [_norm_enc_ch, if_pos ⟨h0, h3⟩]⟩

/-- Claim C9: the encoder preset operations accept as channel argument only
the case-insensitive string `"all"` or a single integer in [0,3]; every
other selector — including a collection of integers — raises a validation
error before anything is sent. -/
theorem claim_C9 (sel : ChSel) (value16 value32 : Int)
    (h16 : 0 ≤ value16 ∧ value16 ≤ 0xFFFF)
    (h32 : 0 ≤ value32 ∧ value32 ≤ 0xFFFFFFFF) :
    (¬ encChOk sel →
      cmd_encoder_preset_hi sel value16 = ([], some .encChBad) ∧
      cmd_encoder_preset_lo sel value16 = ([], some .encChBad) ∧
      cmd_encoder_preset_32 sel value32 = ([], some .encChBad)) ∧
    (encChOk sel →
      (cmd_encoder_preset_hi sel value16).2 = none ∧
      (cmd_encoder_preset_lo sel value16).2 = none ∧
      (cmd_encoder_preset_32 sel value32).2 = none) := by
  have hhiv : (0 : Int) ≤ ((value32.toNat >>> 16) &&& 0xFFFF : Nat) ∧
      (((value32.toNat >>> 16) &&& 0xFFFF : Nat) : Int) ≤ 0xFFFF :=
    ⟨Int.natCast_nonneg _, by exact_mod_cast Nat.and_le_right⟩
  have hlov : (0 : Int) ≤ ((value32.toNat &&& 0xFFFF : Nat) : Int) ∧
      ((value32.toNat &&& 0xFFFF : Nat) : Int) ≤ 0xFFFF :=
    ⟨Int.natCast_nonneg _, by exact_mod_cast Nat.and_le_right⟩
  constructor
  · intro h
    have hn := norm_enc_ch_err h
    refine ⟨preset_hi_err hn h16, preset_lo_err hn h16, ?_⟩
    rw [cmd_encoder_preset_32, if_neg (not_not.mpr h32)]
    simp only [preset_hi_err hn hhiv]
  · intro h
    obtain ⟨l, hn⟩ := norm_enc_ch_ok h
    refine ⟨by rw [preset_hi_ok hn h16], by rw [preset_lo_ok hn h16], ?_⟩
    rw [cmd_encoder_preset_32, if_neg (not_not.mpr h32)]
    simp only [preset_hi_ok hn hhiv, preset_lo_ok hn hlov]

/-- Claim C9 (witness): a list selector — accepted by the other
channel-taking commands — is rejected by all three preset operations with
nothing sent. -/
theorem claim_C9_witness :
    cmd_encoder_preset_hi (.list [1]) 5 = ([], some .encChBad) ∧
    cmd_encoder_preset_lo (.list [1]) 5 = ([], some .encChBad) ∧
    cmd_encoder_preset_32 (.list [1]) 7 = ([], some .encChBad) :=
  (claim_C9 (.list [1]) 5 7 (by norm_num) (by norm_num)).1
    (by rintro (⟨s, hcs, -⟩ | ⟨n, hcs, -⟩) <;> cases hcs)

/-- Claim C6: `cmd_encoder_ctrl` rejects simultaneous count-reset and
load-preset for every channel selection with nothing sent; with neither
requested, every emitted frame's data field is 0x0000 plus only the
direction-invert bit. -/
theorem claim_C6 (channels : ChSel) (dir_invert : Option Bool) :
    cmd_encoder_ctrl channels dir_invert true true =
      ([], some .flagsConflict) ∧
    ∀ f ∈ (cmd_encoder_ctrl channels dir_invert false false).1,
      dataField f =
        ['0', '0', '0', if dir_invert = some true then '1' else '0'] := by
  constructor
  · rw [cmd_encoder_ctrl, if_pos ⟨rfl, rfl⟩]
  · intro f hf
    rw [cmd_encoder_ctrl, if_neg (by simp)] at hf
    cases hn : _normalize_channels channels 3 with
    | error e =>
        simp only [hn] at hf
        exact absurd hf (List.not_mem_nil f)
    | ok l =>
        simp only [hn, encCtrlLoop_ok] at hf
        obtain ⟨c, hc, rfl⟩ := List.mem_map.mp hf
        rw [dataField_frameOf (hh_from_single_ch_le c)
          (show encCtrlData dir_invert false false ≤ 0xFFFF from by
            have := encCtrlData_le dir_invert false false; omega)]
        by_cases hd : dir_invert = some true
        · have hone : encCtrlData dir_invert false false = 1 := by
            simp [encCtrlData, hd]
          rw [hone, if_pos hd]
          decide
        · have hzero : encCtrlData dir_invert false false = 0 := by
            simp [encCtrlData, hd]
          rw [hzero, if_neg hd]
          decide

/-- Claim C6 (witness): the conflict rejection and the direction-bit data
field at the concrete channel 2 with inversion requested. -/
theorem claim_C6_witness :
    cmd_encoder_ctrl (.int 2) (some true) true true =
      ([], some .flagsConflict) ∧
    ∀ f ∈ (cmd_encoder_ctrl (.int 2) (some true) false false).1,
      dataField f =
        ['0', '0', '0',
          if (some true : Option Bool) = some true then '1' else '0'] :=
  claim_C6 (.int 2) (some true)

/-- Claim C4 (counterexample): with the valid channel selector that is the
empty collection, `cmd_pwm_set_frequency` does NOT raise for
`freq_hz = 4096`: the band check lives inside the per-channel loop, which
never runs, so the call returns with no error and no frame. -/
theorem claim_C4_counterexample :
    cmd_pwm_set_frequency (.list []) 4096 = ([], none) := by decide

/-- Claim C4 (amended): for every valid channel selector that denotes at
least one channel, `cmd_pwm_set_frequency` encodes freq 0 as data 0x0000
and 4095 as 0x0FFF, encodes 5000 as 0x8005, and raises a validation error
(with nothing sent) for 4096 and for 97500. -/
theorem claim_C4 (channels : ChSel) (chs : List Nat)
    (hn : _normalize_channels channels 7 = .ok chs) (hne : chs ≠ []) :
    ((cmd_pwm_set_frequency channels 0).2 = none ∧
      (cmd_pwm_set_frequency channels 0).1 ≠ [] ∧
      ∀ f ∈ (cmd_pwm_set_frequency channels 0).1,
        dataField f = ['0', '0', '0', '0']) ∧
    ((cmd_pwm_set_frequency channels 4095).2 = none ∧
      (cmd_pwm_set_frequency channels 4095).1 ≠ [] ∧
      ∀ f ∈ (cmd_pwm_set_frequency channels 4095).1,
        dataField f = ['0', 'F', 'F', 'F']) ∧
    ((cmd_pwm_set_frequency channels 5000).2 = none ∧
      (cmd_pwm_set_frequency channels 5000).1 ≠ [] ∧
      ∀ f ∈ (cmd_pwm_set_frequency channels 5000).1,
        dataField f = ['8', '0', '0', '5']) ∧
    cmd_pwm_set_frequency channels 4096 = ([], some .freqBand) ∧
    cmd_pwm_set_frequency channels 97500 = ([], some .freqBand) := by
  have hb : ∀ c ∈ chs, c ≤ 0xFF :=
    fun c hc => le_trans (norm_channels_le hn c hc) (by omega)
  have hok : ∀ (fz : Int) (d : Nat), pwmFreqData fz = .ok d → ¬ fz < 0 →
      cmd_pwm_set_frequency channels fz =
        (chs.map (fun c => frameOf 'B' c 0x0 d), none) := by
    intro fz d hd hneg
    rw [cmd_pwm_set_frequency, if_neg hneg]
    simp only [hn]
    exact pwmFreqLoop_ok hd chs hb
  have hdata : ∀ (d : Nat), d ≤ 0xFFFF →
      ∀ f ∈ chs.map (fun c => frameOf 'B' c 0x0 d),
        dataField f = zfill 4 (natToHex d) := by
    intro d hdle f hf
    obtain ⟨c, hc, rfl⟩ := List.mem_map.mp hf
    exact dataField_frameOf (hb c hc) hdle
  have hnonempty : ∀ (d : Nat),
      chs.map (fun c => frameOf 'B' c 0x0 d) ≠ [] := by
    intro d hmap
    exact hne (List.map_eq_nil_iff.mp hmap)
  have herr : ∀ (fz : Int), ¬ fz < 0 → pwmFreqData fz = .error .freqBand →
      cmd_pwm_set_frequency channels fz = ([], some .freqBand) := by
    intro fz hneg hd
    rw [cmd_pwm_set_frequency, if_neg hneg]
    simp only [hn]
    obtain ⟨c, rest, rfl⟩ : ∃ c rest, chs = c :: rest := by
      cases chs with
      | nil => exact absurd rfl hne
      | cons c r => exact ⟨c, r, rfl⟩
    rw [pwmFreqLoop]
    simp only [hd]
  refine ⟨?_, ?_, ?_, ?_, ?_⟩
  · rw [hok 0 0 (by decide) (by omega)]
    exact ⟨rfl, hnonempty 0, fun f hf => by
      rw [hdata 0 (by omega) f hf]; decide⟩
  · rw [hok 4095 4095 (by decide) (by omega)]
    exact ⟨rfl, hnonempty 4095, fun f hf => by
      rw [hdata 4095 (by omega) f hf]; decide⟩
  · rw [hok 5000 0x8005 (by decide) (by omega)]
    exact ⟨rfl, hnonempty 0x8005, fun f hf => by
      rw [hdata 0x8005 (by omega) f hf]; decide⟩
  · exact herr 4096 (by omega) (by decide)
  · exact herr 97500 (by omega) (by decide)

/-- Claim C4 (witness): the amended claim at the concrete channel 3. -/
theorem claim_C4_witness :
    cmd_pwm_set_frequency (.int 3) 4096 = ([], some .freqBand) ∧
    cmd_pwm_set_frequency (.int 3) 97500 = ([], some .freqBand) :=
  ⟨(claim_C4 (.int 3) [3] (by decide) (by decide)).2.2.2.1,
   (claim_C4 (.int 3) [3] (by decide) (by decide)).2.2.2.2⟩

/-- Claim C10: for a valid duty the raw code lies in [0x0000, 0x03FF]
(in [0x0001, 0x03FE] for a strictly interior duty), `cmd_pwm_set_duty`
delegates exactly that code to `cmd_pwm_set_data_raw`, and the raw range
check can never fire on that path. -/
theorem claim_C10 (duty : ℚ) (h0 : 0 ≤ duty) (h1 : duty ≤ 1) :
    (0 ≤ pwmDutyCode duty ∧ pwmDutyCode duty ≤ 0x03FF) ∧
    (0 < duty → duty < 1 →
      1 ≤ pwmDutyCode duty ∧ pwmDutyCode duty ≤ 0x03FE) ∧
    ∀ channels : ChSel,
      cmd_pwm_set_duty channels duty =
        cmd_pwm_set_data_raw channels (pwmDutyCode duty) ∧
      (cmd_pwm_set_duty channels duty).2 ≠ some .dutyRawRange := by
  have hcode : 0 ≤ pwmDutyCode duty ∧ pwmDutyCode duty ≤ 0x03FF := by
    by_cases hz : duty = 0
    · rw [pwmDutyCode, if_pos hz]; norm_num
    · by_cases ho : duty = 1
      · rw [pwmDutyCode, if_neg hz, if_pos ho]; norm_num
      · have := pwmDutyCode_interior (lt_of_le_of_ne h0 (Ne.symm hz))
          (lt_of_le_of_ne h1 ho)
        omega
  refine ⟨hcode, fun ha hb => ?_, fun channels => ?_⟩
  · have := pwmDutyCode_interior ha hb
    omega
  · have heq : cmd_pwm_set_duty channels duty =
        cmd_pwm_set_data_raw channels (pwmDutyCode duty) := by
      rw [cmd_pwm_set_duty, if_neg (not_not.mpr ⟨h0, h1⟩)]
    refine ⟨heq, ?_⟩
    rw [heq, cmd_pwm_set_data_raw, if_neg (not_not.mpr ⟨hcode.1, hcode.2⟩)]
    cases hnm : _normalize_channels channels 7 with
    | error e =>
        simp only [hnm]
        rcases norm_channels_err hnm with rfl | rfl <;> simp
    | ok l =>
        simp only [hnm,
          pwmRawLoop_ok (Int.toNat_le.mpr (le_trans hcode.2 (by norm_num)))
            l (fun c hc => le_trans (norm_channels_le hnm c hc) (by omega))]
        simp

/-- Claim C10 (witness): the delegation and range facts at duty 3/4 and
channel 0. -/
theorem claim_C10_witness :
    (0 ≤ pwmDutyCode (3/4) ∧ pwmDutyCode (3/4) ≤ 0x03FF) ∧
    (0 < (3/4 : ℚ) → (3/4 : ℚ) < 1 →
      1 ≤ pwmDutyCode (3/4) ∧ pwmDutyCode (3/4) ≤ 0x03FE) ∧
    ∀ channels : ChSel,
      cmd_pwm_set_duty channels (3/4) =
        cmd_pwm_set_data_raw channels (pwmDutyCode (3/4)) ∧
      (cmd_pwm_set_duty channels (3/4)).2 ≠ some .dutyRawRange :=
  claim_C10 (3/4) (by norm_num) (by norm_num)

theorem hexVal_of_isHexUpper {c : Char} (h : isHexUpper c = true) :
    ∃ d, hexVal c = some d ∧ d < 16 := by
  have hm : c ∈ hexDigitsUpper := by
    simpa [isHexUpper] using h
  fin_cases hm <;> exact ⟨_, rfl, by decide⟩

/-- Claim C7: the GPIO-read reply parser never raises: with fewer than two
hex characters in the reply it returns the sentinel -1, and with at least
two the `int(..., 16)` parse always succeeds with an 8-bit value. -/
theorem claim_C7 (resp : List Char) :
    ((gpioHexChars resp).length < 2 → gpio_read_value resp = -1) ∧
    (2 ≤ (gpioHexChars resp).length →
      ∃ v : Nat, v ≤ 255 ∧ gpio_read_value resp = (v : Int)) := by
  constructor
  · intro h
    simp only [gpio_read_value]
    rw [if_neg (by omega)]
  · intro h
    have hlen : ((gpioHexChars resp).drop
        ((gpioHexChars resp).length - 2)).length = 2 := by
      rw [List.length_drop]
      omega
    obtain ⟨a, b, hab⟩ := List.length_eq_two.mp hlen
    have hmema : a ∈ gpioHexChars resp :=
      List.mem_of_mem_drop (hab ▸ List.mem_cons_self a [b])
    have hmemb : b ∈ gpioHexChars resp :=
      List.mem_of_mem_drop (hab ▸ List.mem_cons_of_mem a (List.mem_cons_self b []))
    have hhexa : isHexUpper a = true := by
      rw [gpioHexChars] at hmema
      exact List.of_mem_filter hmema
    have hhexb : isHexUpper b = true := by
      rw [gpioHexChars] at hmemb
      exact List.of_mem_filter hmemb
    obtain ⟨da, hda, hda16⟩ := hexVal_of_isHexUpper hhexa
    obtain ⟨db, hdb, hdb16⟩ := hexVal_of_isHexUpper hhexb
    refine ⟨da * 16 + db, by omega, ?_⟩
    simp only [gpio_read_value]
    rw [if_pos h, hab]
    simp only [parseHexChars, List.foldl_cons, List.foldl_nil, hda, hdb]
    norm_num

/-- Claim C7 (witness): a hexless reply yields the sentinel, and a
well-formed reply parses to an 8-bit value. -/
theorem claim_C7_witness :
    gpio_read_value ['*', 'N', 'G', '!'] = -1 ∧
    ∃ v : Nat, v ≤ 255 ∧
      gpio_read_value ['*', 'D', '0', '0', '0', '0', 'A', '7', '!'] = (v : Int) :=
  ⟨(claim_C7 ['*', 'N', 'G', '!']).1 (by decide),
   (claim_C7 ['*', 'D', '0', '0', '0', '0', 'A', '7', '!']).2 (by decide)⟩

/-- Claim C8: for every command operation of the catalog, any raised
validation error precedes every transport write: whenever a call ends in
an error, its send trace is empty, including for the multi-channel and
composite operations whose validation is interleaved with their
per-frame send loop. -/
theorem claim_C8 :
    (∀ ch cs : Int, noPartial (cmd_set_chunk_size ch cs)) ∧
    noPartial cmd_start_accumulation ∧
    (∀ ch n : Int, noPartial (cmd_set_chunk_num ch n)) ∧
    noPartial cmd_stop_accumulation ∧
    (∀ ch : Int, noPartial (cmd_adc_single_sample ch)) ∧
    (∀ ch cs : Int, noPartial (cmd_adc_chunk_request ch cs)) ∧
    (∀ lv : Int, noPartial (cmd_set_ldac lv)) ∧
    (∀ m : Int, noPartial (cmd_set_ldac_mask m)) ∧
    (∀ ch v : Int, noPartial (cmd_dac_set_data ch v)) ∧
    (∀ ch v : Int, noPartial (cmd_dac_immediate_out ch v)) ∧
    (∀ ch g : Int, noPartial (cmd_set_opamp_gain ch g)) ∧
    (∀ a i : ChSel, noPartial (cmd_set_gpio_dir a i)) ∧
    (∀ a p : ChSel, noPartial (cmd_set_gpio_pwm_mode a p)) ∧
    (∀ chs : ChSel, noPartial (cmd_set_encoder_mode chs)) ∧
    (∀ (sel : ChSel) (v : Int), noPartial (cmd_encoder_preset_hi sel v)) ∧
    (∀ (sel : ChSel) (v : Int), noPartial (cmd_encoder_preset_lo sel v)) ∧
    (∀ (sel : ChSel) (v : Int), noPartial (cmd_encoder_preset_32 sel v)) ∧
    (∀ (chs : ChSel) (dir : Option Bool) (r p : Bool),
      noPartial (cmd_encoder_ctrl chs dir r p)) ∧
    (∀ (chs : ChSel) (inv : Bool), noPartial (cmd_encoder_dir_invert chs inv)) ∧
    (∀ chs : ChSel, noPartial (cmd_encoder_count_reset chs)) ∧
    (∀ chs : ChSel, noPartial (cmd_encoder_load_preset chs)) ∧
    (∀ (chs : ChSel) (f : Int), noPartial (cmd_pwm_set_frequency chs f)) ∧
    (∀ (chs : ChSel) (d : Int), noPartial (cmd_pwm_set_data_raw chs d)) ∧
    (∀ (chs : ChSel) (duty : ℚ), noPartial (cmd_pwm_set_duty chs duty)) ∧
    (∀ ch : Int, noPartial (cmd_encoder_status_read ch)) ∧
    (∀ v : Int, noPartial (cmd_gpio_write v)) ∧
    (∀ chs : ChSel, noPartial (cmd_gpio_write_mask chs)) ∧
    (∀ m : ResetArg, noPartial (cmd_reset m)) ∧
    noPartial cmd_reset_all ∧
    noPartial cmd_reset_adc_tx :=
  ⟨chunk_size_noPartial, sendOne_noPartial _, chunk_num_noPartial,
   sendOne_noPartial _, adc_single_noPartial, adc_chunk_req_noPartial,
   set_ldac_noPartial, ldac_mask_noPartial, dac_set_data_noPartial,
   dac_imm_noPartial, opamp_noPartial, gpio_dir_noPartial,
   gpio_pwm_mode_noPartial, encoder_mode_noPartial, preset_hi_noPartial,
   preset_lo_noPartial, preset_32_noPartial, encoder_ctrl_noPartial,
   fun chs inv => encoder_ctrl_noPartial chs (some inv) false false,
   fun chs => encoder_ctrl_noPartial chs none true false,
   fun chs => encoder_ctrl_noPartial chs none false true,
   pwm_freq_noPartial, pwm_raw_noPartial, pwm_duty_noPartial,
   status_read_noPartial, gpio_write_noPartial, gpio_write_mask_noPartial,
   reset_noPartial, reset_noPartial .all, reset_noPartial .adc⟩

/-- Claim C8 (witness): concrete invalid inputs leave the send trace
empty, for a simple command, an interleaved-validation loop command and a
composite command. -/
theorem claim_C8_witness :
    (cmd_set_chunk_size 22 0).1 = [] ∧
    (cmd_pwm_set_frequency (.int 3) 4096).1 = [] ∧
    (cmd_encoder_preset_32 (.str ['x']) 7).1 = [] :=
  ⟨claim_C8.1 22 0 .adcChRange (by decide),
   claim_C8.2.2.2.2.2.2.2.2.2.2.2.2.2.2.2.2.2.2.2.2.2.1 (.int 3) 4096
     .freqBand (by decide),
   claim_C8.2.2.2.2.2.2.2.2.2.2.2.2.2.2.2.2.1 (.str ['x']) 7
     .encChBad (by decide)⟩
